import Mathlib

/-!
Shallow embedding of the `text_to_input` pixel-art renderer (`src/lib.rs`).

The Rust library turns a string into a rectangular grid of `'0'`/`'1'`
characters using a built-in variable-width 5-row glyph font.  We model:

* `CharacterPattern` / `CharacterPattern.new?` — the pattern struct and its
  asserting constructor (`new?` returns `none` exactly when one of the Rust
  `assert!`s would fire);
* `fontLiterals` / `buildFont` / `fontList` — the 93 glyph literals inserted
  by `PixelFont::new`, built through the asserting constructor.  The Rust
  `HashMap` has unique keys (each character is inserted once), so an
  association list with `List.lookup` has the same lookup semantics;
* `validate_text`, `contentWidth`, `compositeLoop`, `gridToString`,
  `text_to_pixel_art` — the validation pass, the width computation loop, the
  composite pass (2-d writes via `set2d`), the string conversion and the
  public entry point, each mirroring the corresponding Rust code.

Strings are modelled as `List Char`; the 2-d grid `Vec<Vec<u8>>` as
`List (List Nat)`; fallible code as `Except`/`Option`.
-/

namespace TextToInput

/-- One character's bitmap: 5 rows of bits plus its column width
(`CharacterPattern` in `src/lib.rs`). -/
structure CharacterPattern where
  pixels : List (List Nat)
  width : Nat
deriving DecidableEq, Repr

/-- The asserting constructor `CharacterPattern::new`: `none` exactly when one
of the Rust assertions (5 rows, nonempty, positive width, equal row lengths)
would panic. -/
def CharacterPattern.new? (rows : List (List Nat)) : Option CharacterPattern :=
  if rows.length = 5 ∧ rows ≠ [] then
    let width := (rows.headD []).length
    if width > 0 ∧ rows.all (fun row => row.length = width) then
      some { pixels := rows, width := width }
    else none
  else none

/-- The error enum `PixelArtError` of `src/lib.rs`. -/
inductive PixelArtError where
  | TextTooLong : Nat → PixelArtError
  | UnsupportedCharacter : Char → PixelArtError
deriving DecidableEq, Repr

/-- The 93 glyph literals inserted by `PixelFont::new`, in source order. -/
def fontLiterals : List (Char × List (List Nat)) := [
  ('A', [[0, 1, 1, 0], [1, 0, 0, 1], [1, 1, 1, 1], [1, 0, 0, 1], [1, 0, 0, 1]]),
  ('B', [[1, 1, 1, 0], [1, 0, 0, 1], [1, 1, 1, 0], [1, 0, 0, 1], [1, 1, 1, 0]]),
  ('C', [[0, 1, 1, 1], [1, 0, 0, 0], [1, 0, 0, 0], [1, 0, 0, 0], [0, 1, 1, 1]]),
  ('D', [[1, 1, 1, 0], [1, 0, 0, 1], [1, 0, 0, 1], [1, 0, 0, 1], [1, 1, 1, 0]]),
  ('E', [[1, 1, 1, 1], [1, 0, 0, 0], [1, 1, 1, 0], [1, 0, 0, 0], [1, 1, 1, 1]]),
  ('F', [[1, 1, 1, 1], [1, 0, 0, 0], [1, 1, 1, 0], [1, 0, 0, 0], [1, 0, 0, 0]]),
  ('G', [[0, 1, 1, 1], [1, 0, 0, 0], [1, 0, 1, 1], [1, 0, 0, 1], [0, 1, 1, 1]]),
  ('H', [[1, 0, 0, 1], [1, 0, 0, 1], [1, 1, 1, 1], [1, 0, 0, 1], [1, 0, 0, 1]]),
  ('I', [[1], [1], [1], [1], [1]]),
  ('J', [[0, 0, 0, 1], [0, 0, 0, 1], [0, 0, 0, 1], [1, 0, 0, 1], [0, 1, 1, 0]]),
  ('K', [[1, 0, 0, 1], [1, 0, 1, 0], [1, 1, 0, 0], [1, 0, 1, 0], [1, 0, 0, 1]]),
  ('L', [[1, 0, 0], [1, 0, 0], [1, 0, 0], [1, 0, 0], [1, 1, 1]]),
  ('M', [[1, 0, 0, 0, 1], [1, 1, 0, 1, 1], [1, 0, 1, 0, 1], [1, 0, 0, 0, 1], [1, 0, 0, 0, 1]]),
  ('N', [[1, 0, 0, 1], [1, 1, 0, 1], [1, 0, 1, 1], [1, 0, 0, 1], [1, 0, 0, 1]]),
  ('O', [[0, 1, 1, 0], [1, 0, 0, 1], [1, 0, 0, 1], [1, 0, 0, 1], [0, 1, 1, 0]]),
  ('P', [[1, 1, 1, 0], [1, 0, 0, 1], [1, 1, 1, 0], [1, 0, 0, 0], [1, 0, 0, 0]]),
  ('Q', [[0, 1, 1, 0], [1, 0, 0, 1], [1, 0, 0, 1], [1, 0, 1, 1], [0, 1, 1, 1]]),
  ('R', [[1, 1, 1, 0], [1, 0, 0, 1], [1, 1, 1, 0], [1, 0, 1, 0], [1, 0, 0, 1]]),
  ('S', [[0, 1, 1, 1], [1, 0, 0, 0], [0, 1, 1, 0], [0, 0, 0, 1], [1, 1, 1, 0]]),
  ('T', [[1, 1, 1], [0, 1, 0], [0, 1, 0], [0, 1, 0], [0, 1, 0]]),
  ('U', [[1, 0, 0, 1], [1, 0, 0, 1], [1, 0, 0, 1], [1, 0, 0, 1], [1, 1, 1, 1]]),
  ('V', [[1, 0, 1], [1, 0, 1], [1, 0, 1], [1, 0, 1], [0, 1, 0]]),
  ('W', [[1, 0, 0, 0, 1], [1, 0, 0, 0, 1], [1, 0, 0, 0, 1], [1, 0, 1, 0, 1], [0, 1, 0, 1, 0]]),
  ('X', [[1, 0, 1], [1, 0, 1], [0, 1, 0], [1, 0, 1], [1, 0, 1]]),
  ('Y', [[1, 0, 1], [1, 0, 1], [1, 1, 1], [0, 1, 0], [0, 1, 0]]),
  ('Z', [[1, 1, 1, 1], [0, 0, 0, 1], [0, 0, 1, 0], [0, 1, 0, 0], [1, 1, 1, 1]]),
  ('a', [[0, 0, 0], [0, 1, 1], [1, 0, 1], [1, 0, 1], [0, 1, 1]]),
  ('b', [[1, 0, 0], [1, 0, 0], [1, 1, 0], [1, 0, 1], [1, 1, 0]]),
  ('c', [[0, 0, 0], [0, 1, 1], [1, 0, 0], [1, 0, 0], [0, 1, 1]]),
  ('d', [[0, 0, 1], [0, 0, 1], [0, 1, 1], [1, 0, 1], [0, 1, 1]]),
  ('e', [[0, 0, 0], [0, 1, 1], [1, 0, 1], [1, 1, 0], [0, 1, 1]]),
  ('f', [[0, 1, 1], [0, 1, 0], [1, 1, 1], [0, 1, 0], [0, 1, 0]]),
  ('g', [[0, 1, 1], [1, 0, 1], [0, 1, 1], [0, 0, 1], [1, 1, 0]]),
  ('h', [[1, 0, 0], [1, 0, 0], [1, 1, 0], [1, 0, 1], [1, 0, 1]]),
  ('i', [[1], [0], [1], [1], [1]]),
  ('j', [[0, 1], [0, 0], [0, 1], [0, 1], [1, 0]]),
  ('k', [[1, 0, 0], [1, 0, 0], [1, 0, 1], [1, 1, 0], [1, 0, 1]]),
  ('l', [[1, 0], [1, 0], [1, 0], [1, 0], [1, 1]]),
  ('m', [[0, 0, 0, 0, 0], [1, 1, 0, 1, 1], [1, 0, 1, 0, 1], [1, 0, 0, 0, 1], [1, 0, 0, 0, 1]]),
  ('n', [[0, 0, 0, 0], [1, 1, 1, 0], [1, 0, 0, 1], [1, 0, 0, 1], [1, 0, 0, 1]]),
  ('o', [[0, 0, 0, 0], [0, 1, 1, 0], [1, 0, 0, 1], [1, 0, 0, 1], [0, 1, 1, 0]]),
  ('p', [[0, 0, 0], [1, 1, 0], [1, 0, 1], [1, 1, 0], [1, 0, 0]]),
  ('q', [[0, 0, 0], [0, 1, 1], [1, 0, 1], [0, 1, 1], [0, 0, 1]]),
  ('r', [[0, 0, 0], [1, 0, 1], [1, 1, 0], [1, 0, 0], [1, 0, 0]]),
  ('s', [[0, 0, 0], [0, 1, 1], [1, 1, 0], [0, 0, 1], [1, 1, 0]]),
  ('t', [[0, 1, 0], [1, 1, 1], [0, 1, 0], [0, 1, 0], [0, 1, 1]]),
  ('u', [[0, 0, 0], [1, 0, 1], [1, 0, 1], [1, 0, 1], [0, 1, 1]]),
  ('v', [[0, 0, 0], [1, 0, 1], [1, 0, 1], [1, 0, 1], [0, 1, 0]]),
  ('w', [[0, 0, 0, 0, 0], [1, 0, 0, 0, 1], [1, 0, 0, 0, 1], [1, 0, 1, 0, 1], [0, 1, 0, 1, 0]]),
  ('x', [[0, 0, 0], [1, 0, 1], [0, 1, 0], [1, 0, 1], [1, 0, 1]]),
  ('y', [[0, 0, 0], [1, 0, 1], [1, 0, 1], [0, 1, 0], [1, 0, 0]]),
  ('z', [[0, 0, 0], [1, 1, 1], [0, 0, 1], [0, 1, 0], [1, 1, 1]]),
  ('0', [[0, 1, 1, 0], [1, 0, 0, 1], [1, 0, 0, 1], [1, 0, 0, 1], [0, 1, 1, 0]]),
  ('1', [[0, 1, 0], [1, 1, 0], [0, 1, 0], [0, 1, 0], [1, 1, 1]]),
  ('2', [[0, 1, 1, 0], [1, 0, 0, 1], [0, 0, 1, 0], [0, 1, 0, 0], [1, 1, 1, 1]]),
  ('3', [[0, 1, 1, 0], [1, 0, 0, 1], [0, 0, 1, 0], [1, 0, 0, 1], [0, 1, 1, 0]]),
  ('4', [[0, 1, 1, 0], [1, 0, 1, 0], [1, 1, 1, 1], [0, 0, 1, 0], [0, 0, 1, 0]]),
  ('5', [[1, 1, 1, 1], [1, 0, 0, 0], [1, 1, 1, 0], [0, 0, 0, 1], [1, 1, 1, 0]]),
  ('6', [[0, 1, 1, 0], [1, 0, 0, 0], [1, 1, 1, 0], [1, 0, 0, 1], [0, 1, 1, 0]]),
  ('7', [[1, 1, 1, 1], [0, 0, 0, 1], [0, 0, 1, 0], [0, 1, 0, 0], [0, 1, 0, 0]]),
  ('8', [[0, 1, 1, 0], [1, 0, 0, 1], [0, 1, 1, 0], [1, 0, 0, 1], [0, 1, 1, 0]]),
  ('9', [[0, 1, 1, 0], [1, 0, 0, 1], [0, 1, 1, 1], [0, 0, 0, 1], [0, 1, 1, 0]]),
  ('@', [[0, 1, 1, 0], [1, 0, 0, 1], [1, 0, 1, 1], [1, 0, 0, 0], [0, 1, 1, 1]]),
  ('!', [[1], [1], [1], [0], [1]]),
  ('#', [[0, 1, 0, 1, 0], [1, 1, 1, 1, 1], [0, 1, 0, 1, 0], [1, 1, 1, 1, 1], [0, 1, 0, 1, 0]]),
  ('$', [[0, 1, 1, 1, 0], [1, 0, 1, 0, 0], [0, 1, 1, 1, 0], [0, 0, 1, 0, 1], [0, 1, 1, 1, 0]]),
  ('%', [[1, 1, 0, 0, 1], [1, 1, 0, 1, 0], [0, 0, 1, 0, 0], [0, 1, 0, 1, 1], [1, 0, 0, 1, 1]]),
  ('^', [[0, 1, 0], [1, 0, 1], [0, 0, 0], [0, 0, 0], [0, 0, 0]]),
  ('&', [[0, 1, 0, 0, 0], [1, 0, 1, 0, 0], [0, 1, 0, 1, 0], [1, 0, 1, 0, 0], [0, 1, 0, 1, 0]]),
  ('*', [[1, 0, 1], [0, 1, 0], [1, 0, 1], [0, 0, 0], [0, 0, 0]]),
  ('(', [[0, 1], [1, 0], [1, 0], [1, 0], [0, 1]]),
  (')', [[1, 0], [0, 1], [0, 1], [0, 1], [1, 0]]),
  ('-', [[0, 0, 0], [0, 0, 0], [1, 1, 1], [0, 0, 0], [0, 0, 0]]),
  ('_', [[0, 0, 0], [0, 0, 0], [0, 0, 0], [0, 0, 0], [1, 1, 1]]),
  ('=', [[0, 0, 0], [1, 1, 1], [0, 0, 0], [1, 1, 1], [0, 0, 0]]),
  ('+', [[0, 0, 0], [0, 1, 0], [1, 1, 1], [0, 1, 0], [0, 0, 0]]),
  ('?', [[0, 1, 1, 0], [1, 0, 0, 1], [0, 0, 1, 0], [0, 0, 0, 0], [0, 0, 1, 0]]),
  ('.', [[0], [0], [0], [0], [1]]),
  ('/', [[0, 0, 0, 0, 1], [0, 0, 0, 1, 0], [0, 0, 1, 0, 0], [0, 1, 0, 0, 0], [1, 0, 0, 0, 0]]),
  ('|', [[1], [1], [1], [1], [1]]),
  (':', [[0], [1], [0], [1], [0]]),
  (';', [[0, 0], [0, 1], [0, 0], [0, 1], [1, 1]]),
  (',', [[0, 0], [0, 0], [0, 0], [0, 1], [1, 1]]),
  ('<', [[0, 0, 1], [0, 1, 0], [1, 0, 0], [0, 1, 0], [0, 0, 1]]),
  ('>', [[1, 0, 0], [0, 1, 0], [0, 0, 1], [0, 1, 0], [1, 0, 0]]),
  ('[', [[1, 1], [1, 0], [1, 0], [1, 0], [1, 1]]),
  (']', [[1, 1], [0, 1], [0, 1], [0, 1], [1, 1]]),
  ((Char.ofNat 123), [[0, 1, 1], [0, 1, 0], [1, 0, 0], [0, 1, 0], [0, 1, 1]]),
  ((Char.ofNat 125), [[1, 1, 0], [0, 1, 0], [0, 0, 1], [0, 1, 0], [1, 1, 0]]),
  ('~', [[0, 0, 0], [0, 1, 1], [1, 1, 0], [0, 0, 0], [0, 0, 0]]),
  ((Char.ofNat 34), [[1, 0, 1], [1, 0, 1], [0, 0, 0], [0, 0, 0], [0, 0, 0]]),
  ((Char.ofNat 39), [[1, 0, 0, 0, 0], [0, 1, 0, 0, 0], [0, 0, 1, 0, 0], [0, 0, 0, 1, 0], [0, 0, 0, 0, 1]]),
  ((Char.ofNat 96), [[1, 0], [0, 1], [0, 0], [0, 0], [0, 0]])
]

/-- Build the font table from the literals through the asserting constructor:
`none` as soon as one literal is malformed (a Rust panic in `PixelFont::new`).
-/
def buildFont : List (Char × List (List Nat)) → Option (List (Char × CharacterPattern))
  | [] => some []
  | (c, rows) :: rest =>
    match CharacterPattern.new? rows, buildFont rest with
    | some p, some f => some ((c, p) :: f)
    | _, _ => none

/-- The font table built by `PixelFont::new` (association-list view of the
`HashMap`; keys are unique so `List.lookup` agrees with map lookup). -/
def fontList : List (Char × CharacterPattern) := (buildFont fontLiterals).getD []

/-- `PixelFont::get_pattern` / `characters.get`. -/
def get_pattern (font : List (Char × CharacterPattern)) (c : Char) : Option CharacterPattern :=
  List.lookup c font

/-- The `validate_text` function of `src/lib.rs`: scan left to right, skip
spaces, fail with `UnsupportedCharacter` on the first character missing from
the table. -/
def validate_text (text : List Char) (font : List (Char × CharacterPattern)) :
    Except PixelArtError Unit :=
  match text with
  | [] => Except.ok ()
  | c :: rest =>
    if c = ' ' then validate_text rest font
    else if (get_pattern font c).isSome then validate_text rest font
    else Except.error (PixelArtError.UnsupportedCharacter c)

/-- Width contributed by one character in the width-computation loop of
`text_to_pixel_art`: 2 for a space, the glyph width for a table entry,
0 for a character missing from the table. -/
def charWidth (font : List (Char × CharacterPattern)) (c : Char) : Nat :=
  if c = ' ' then 2
  else match get_pattern font c with
    | some p => p.width
    | none => 0

/-- The `content_width` loop of `text_to_pixel_art`: per-character width plus
one spacer column after every character except the last. -/
def contentWidth (font : List (Char × CharacterPattern)) : List Char → Nat
  | [] => 0
  | c :: rest => charWidth font c + (if rest.isEmpty then 0 else 1) + contentWidth font rest

/-- The 2-d grid `Vec<Vec<u8>>` of the Rust code. -/
abbrev Grid := List (List Nat)

/-- `result[r][c] = v`; out-of-range indices leave the grid unchanged, which
never happens in the modelled code paths. -/
def set2d (g : Grid) (r c : Nat) (v : Nat) : Grid :=
  g.set r ((g.getD r []).set c v)

/-- Read `g[r][c]`, with 0 outside the grid. -/
def get2d (g : Grid) (r c : Nat) : Nat :=
  (g.getD r []).getD c 0

/-- Write one pattern row into grid row `r` starting at column `x`
(the inner `for (col_idx, &pixel)` loop). -/
def writeRow : Grid → Nat → Nat → List Nat → Grid
  | g, _, _, [] => g
  | g, r, x, p :: rest => writeRow (set2d g r x p) r (x + 1) rest

/-- Write consecutive pattern rows starting at grid row `r`
(the outer `for (row_idx, row)` loop). -/
def writeRows : Grid → Nat → Nat → List (List Nat) → Grid
  | g, _, _, [] => g
  | g, r, x, row :: rest => writeRows (writeRow g r x row) (r + 1) x rest

/-- Copy a character pattern into the grid at column `x`, offset one row down
for the top padding. -/
def writePattern (g : Grid) (p : CharacterPattern) (x : Nat) : Grid :=
  writeRows g 1 x p.pixels

/-- Cursor advance after one character: one extra spacer column unless the
character was the last one (`if i < chars.len() - 1`). -/
def nextX (rest : List Char) (x : Nat) : Nat :=
  if rest.isEmpty then x else x + 1

/-- The composite pass of `text_to_pixel_art`: walk the characters left to
right, a space advances the cursor by 2 without writing, a table character has
its pattern copied at the cursor and advances by its width, plus one spacer
column between adjacent characters. -/
def compositeLoop (font : List (Char × CharacterPattern)) :
    List Char → Nat → Grid → Grid
  | [], _, g => g
  | c :: rest, x, g =>
    if c = ' ' then
      compositeLoop font rest (nextX rest (x + 2)) g
    else
      match get_pattern font c with
      | some p => compositeLoop font rest (nextX rest (x + p.width)) (writePattern g p x)
      | none => compositeLoop font rest (nextX rest x) g

/-- The newline character pushed after every grid row. -/
def nl : Char := Char.ofNat 10

/-- `if pixel == 1 \x7b '1' \x7d else \x7b '0' \x7d`. -/
def bitChar (p : Nat) : Char :=
  if p = 1 then '1' else '0'

/-- The string-conversion loop of `text_to_pixel_art`: each grid row becomes
its characters followed by a newline. -/
def gridToString : Grid → List Char
  | [] => []
  | row :: rest => row.map bitChar ++ nl :: gridToString rest

/-- The public entry point `text_to_pixel_art` of `src/lib.rs`. -/
def text_to_pixel_art (text : List Char) : Except PixelArtError (List Char) :=
  if text = [] then Except.ok []
  else
    match validate_text text fontList with
    | Except.error e => Except.error e
    | Except.ok _ =>
      let totalWidth := contentWidth fontList text + 2
      let grid := compositeLoop fontList text 1
        (List.replicate 7 (List.replicate totalWidth 0))
      Except.ok (gridToString grid)

/-- Spec-side: sum of the per-character glyph widths (a space contributing 2),
without the spacer columns. -/
def sumGlyphWidths (font : List (Char × CharacterPattern)) (text : List Char) : Nat :=
  (text.map (charWidth font)).sum

/-- Spec-side: the first character, in left-to-right order, that is not a
space and has no entry in the font table. -/
def firstUnsupported (font : List (Char × CharacterPattern)) (text : List Char) : Option Char :=
  text.find? (fun c => !(c == ' ') && (get_pattern font c).isNone)

/-- Helper for `linesOf`: accumulate the current line (reversed). -/
def linesAux : List Char → List Char → List (List Char)
  | [], acc => if acc.isEmpty then [] else [acc.reverse]
  | c :: rest, acc =>
    if c = nl then acc.reverse :: linesAux rest []
    else linesAux rest (c :: acc)

/-- Spec-side: split a character list into its lines, a trailing newline
producing no extra empty line (as Rust's `str::lines`). -/
def linesOf (s : List Char) : List (List Char) :=
  linesAux s []

/-- Well-formedness of one font pattern: 5 rows, positive width, all rows of
that width. -/
def patternWF (p : CharacterPattern) : Prop :=
  p.pixels.length = 5 ∧ 1 ≤ p.width ∧ ∀ row ∈ p.pixels, row.length = p.width

/-- Well-formedness of a font table: every stored pattern is well-formed. -/
def fontWF (font : List (Char × CharacterPattern)) : Prop :=
  ∀ cp ∈ font, patternWF cp.2

/-- The four all-zero border conditions of a canvas of width `W`. -/
def borderZero (W : Nat) (g : Grid) : Prop :=
  (∀ j, get2d g 0 j = 0) ∧ (∀ j, get2d g 6 j = 0) ∧
    (∀ i, get2d g i 0 = 0) ∧ (∀ i, get2d g i (W - 1) = 0)

section ListLemmas

variable {α : Type _}

theorem getD_set_ne (l : List α) (i j : Nat) (a : α) (d : α) (h : i ≠ j) :
    (l.set i a).getD j d = l.getD j d := by
  induction l generalizing i j with
  | nil => simp
  | cons b t ih =>
    cases i with
    | zero =>
      cases j with
      | zero => exact absurd rfl h
      | succ j2 => simp [List.set, List.getD]
    | succ i2 =>
      cases j with
      | zero => simp [List.set, List.getD]
      | succ j2 =>
        simp only [List.set, List.getD_cons_succ]
        exact ih i2 j2 (by omega)

theorem getD_set_self (l : List α) (i : Nat) (a : α) (d : α) (h : i < l.length) :
    (l.set i a).getD i d = a := by
  induction l generalizing i with
  | nil => simp at h
  | cons b t ih =>
    cases i with
    | zero => rfl
    | succ i2 =>
      simp only [List.set, List.getD_cons_succ]
      exact ih i2 (by simpa using h)

theorem set_of_length_le (l : List α) (i : Nat) (a : α) (h : l.length ≤ i) :
    l.set i a = l := by
  induction l generalizing i with
  | nil => rfl
  | cons b t ih =>
    cases i with
    | zero => simp at h
    | succ i2 => simp only [List.set]; rw [ih i2 (by simpa using h)]

theorem getD_of_length_le (l : List α) (i : Nat) (d : α) (h : l.length ≤ i) :
    l.getD i d = d := by
  induction l generalizing i with
  | nil => rfl
  | cons b t ih =>
    cases i with
    | zero => simp at h
    | succ i2 => simpa using ih i2 (by simpa using h)

theorem getD_replicate (n i : Nat) (a : α) (d : α) (h : i < n) :
    (List.replicate n a).getD i d = a := by
  induction n generalizing i with
  | zero => omega
  | succ m ih =>
    cases i with
    | zero => rfl
    | succ i2 => simpa [List.replicate] using ih i2 (by omega)

theorem getD_map {β : Type _} (f : α → β) (l : List α) (i : Nat) (d : β) (d0 : α)
    (h : i < l.length) : (l.map f).getD i d = f (l.getD i d0) := by
  induction l generalizing i with
  | nil => simp at h
  | cons b t ih =>
    cases i with
    | zero => rfl
    | succ i2 => simpa using ih i2 (by simpa using h)

theorem mem_getD_of_lt (l : List α) (i : Nat) (d : α) (h : i < l.length) :
    l.getD i d ∈ l := by
  induction l generalizing i with
  | nil => simp at h
  | cons b t ih =>
    cases i with
    | zero => simp [List.getD]
    | succ i2 =>
      simp only [List.getD_cons_succ]
      exact List.mem_cons_of_mem _ (ih i2 (by simpa using h))

theorem exists_getD_of_mem (l : List α) (v : α) (d : α) (h : v ∈ l) :
    ∃ i, i < l.length ∧ l.getD i d = v := by
  induction l with
  | nil => simp at h
  | cons b t ih =>
    rcases List.mem_cons.mp h with h1 | h2
    · exact ⟨0, by simp, by simpa using h1.symm⟩
    · obtain ⟨i, hi, hv⟩ := ih h2
      exact ⟨i + 1, by simpa using hi, by simpa using hv⟩

end ListLemmas

section GridLemmas

theorem set2d_length (g : Grid) (r c v : Nat) : (set2d g r c v).length = g.length := by
  simp [set2d]

theorem set2d_getD (g : Grid) (r c v i : Nat) :
    (set2d g r c v).getD i [] =
      if i = r ∧ r < g.length then (g.getD r []).set c v else g.getD i [] := by
  unfold set2d
  by_cases hir : i = r
  · subst hir
    by_cases hlt : i < g.length
    · simp only [hlt, and_true, if_pos rfl, if_pos (And.intro rfl hlt)]
      exact getD_set_self _ _ _ _ hlt
    · rw [set_of_length_le _ _ _ (by omega)]
      simp [hlt]
  · rw [getD_set_ne _ _ _ _ _ (fun h => hir h.symm)]
    simp [hir]

theorem set2d_rowLength (g : Grid) (r c v i : Nat) :
    ((set2d g r c v).getD i []).length = (g.getD i []).length := by
  rw [set2d_getD]
  by_cases h : i = r ∧ r < g.length
  · rw [if_pos h, List.length_set, h.1]
  · rw [if_neg h]

theorem set2d_get2d_ne (g : Grid) (r c v i j : Nat) (h : i ≠ r ∨ j ≠ c) :
    get2d (set2d g r c v) i j = get2d g i j := by
  unfold get2d
  rw [set2d_getD]
  by_cases hir : i = r ∧ r < g.length
  · rcases h with h1 | h2
    · exact absurd hir.1 h1
    · rw [if_pos hir, hir.1]
      exact getD_set_ne _ _ _ _ _ (fun hc => h2 hc.symm)
  · rw [if_neg hir]

theorem writeRow_length (row : List Nat) (g : Grid) (r x : Nat) :
    (writeRow g r x row).length = g.length := by
  induction row generalizing g x with
  | nil => rfl
  | cons p rest ih => rw [writeRow, ih, set2d_length]

theorem writeRow_rowLength (row : List Nat) (g : Grid) (r x i : Nat) :
    ((writeRow g r x row).getD i []).length = (g.getD i []).length := by
  induction row generalizing g x with
  | nil => rfl
  | cons p rest ih => rw [writeRow, ih, set2d_rowLength]

theorem writeRow_get2d_ne (row : List Nat) (g : Grid) (r x i j : Nat)
    (h : i ≠ r ∨ j < x ∨ x + row.length ≤ j) :
    get2d (writeRow g r x row) i j = get2d g i j := by
  induction row generalizing g x with
  | nil => rfl
  | cons p rest ih =>
    rw [writeRow, ih _ _ _, set2d_get2d_ne]
    · rcases h with h1 | h2 | h3
      · exact Or.inl h1
      · exact Or.inr (by omega)
      · exact Or.inr (by simp at h3; omega)
    · rcases h with h1 | h2 | h3
      · exact Or.inl h1
      · exact Or.inr (Or.inl (by omega))
      · exact Or.inr (Or.inr (by simp at h3; omega))

theorem writeRows_length (rows : List (List Nat)) (g : Grid) (r x : Nat) :
    (writeRows g r x rows).length = g.length := by
  induction rows generalizing g r with
  | nil => rfl
  | cons row rest ih => rw [writeRows, ih, writeRow_length]

theorem writeRows_rowLength (rows : List (List Nat)) (g : Grid) (r x i : Nat) :
    ((writeRows g r x rows).getD i []).length = (g.getD i []).length := by
  induction rows generalizing g r with
  | nil => rfl
  | cons row rest ih => rw [writeRows, ih, writeRow_rowLength]

theorem writeRows_get2d_ne (rows : List (List Nat)) (w : Nat)
    (hw : ∀ row ∈ rows, row.length ≤ w) (g : Grid) (r x i j : Nat)
    (h : i < r ∨ r + rows.length ≤ i ∨ j < x ∨ x + w ≤ j) :
    get2d (writeRows g r x rows) i j = get2d g i j := by
  induction rows generalizing g r with
  | nil => rfl
  | cons row rest ih =>
    rw [writeRows, ih (fun q hq => hw q (List.mem_cons_of_mem _ hq)) _ _, writeRow_get2d_ne]
    · have hrow : row.length ≤ w := hw row (List.mem_cons_self _ _)
      rcases h with h1 | h2 | h3 | h4
      · exact Or.inl (by omega)
      · exact Or.inl (by simp at h2; omega)
      · exact Or.inr (Or.inl h3)
      · exact Or.inr (Or.inr (by omega))
    · rcases h with h1 | h2 | h3 | h4
      · exact Or.inl (by omega)
      · exact Or.inr (Or.inl (by simp at h2; omega))
      · exact Or.inr (Or.inr (Or.inl h3))
      · exact Or.inr (Or.inr (Or.inr h4))

theorem writePattern_length (g : Grid) (p : CharacterPattern) (x : Nat) :
    (writePattern g p x).length = g.length :=
  writeRows_length _ _ _ _

theorem writePattern_rowLength (g : Grid) (p : CharacterPattern) (x i : Nat) :
    ((writePattern g p x).getD i []).length = (g.getD i []).length :=
  writeRows_rowLength _ _ _ _ _

theorem writePattern_get2d_ne (g : Grid) (p : CharacterPattern) (x i j : Nat)
    (hp : patternWF p) (h : i = 0 ∨ 6 ≤ i ∨ j < x ∨ x + p.width ≤ j) :
    get2d (writePattern g p x) i j = get2d g i j := by
  refine writeRows_get2d_ne p.pixels p.width (fun row hr => le_of_eq (hp.2.2 row hr)) g 1 x i j ?_
  rcases h with h1 | h2 | h3 | h4
  · exact Or.inl (by omega)
  · exact Or.inr (Or.inl (by rw [hp.1]; omega))
  · exact Or.inr (Or.inr (Or.inl h3))
  · exact Or.inr (Or.inr (Or.inr h4))

end GridLemmas

section FontLemmas

theorem new?_wf (rows : List (List Nat)) (p : CharacterPattern)
    (h : CharacterPattern.new? rows = some p) : patternWF p := by
  unfold CharacterPattern.new? at h
  by_cases h1 : rows.length = 5 ∧ rows ≠ []
  · rw [if_pos h1] at h
    by_cases h2 : (rows.headD []).length > 0 ∧
        rows.all (fun row => row.length = (rows.headD []).length)
    · rw [if_pos h2] at h
      obtain ⟨hp⟩ := h
      refine ⟨h1.1, h2.1, ?_⟩
      intro row hr
      have := List.all_eq_true.mp h2.2 row hr
      simpa using this
    · rw [if_neg h2] at h
      exact absurd h (by simp)
  · rw [if_neg h1] at h
    exact absurd h (by simp)

theorem buildFont_wf (l : List (Char × List (List Nat)))
    (f : List (Char × CharacterPattern)) (h : buildFont l = some f) : fontWF f := by
  induction l generalizing f with
  | nil =>
    obtain ⟨hf⟩ := h
    intro cp hcp
    simp at hcp
  | cons e rest ih =>
    obtain ⟨c, rows⟩ := e
    unfold buildFont at h
    cases hp : CharacterPattern.new? rows with
    | none => rw [hp] at h; exact absurd h (by simp)
    | some p =>
      cases hb : buildFont rest with
      | none => rw [hp, hb] at h; exact absurd h (by simp)
      | some f2 =>
        rw [hp, hb] at h
        obtain ⟨hf⟩ := h
        intro cp hcp
        rcases List.mem_cons.mp hcp with h1 | h2
        · rw [h1]
          exact new?_wf rows p hp
        · exact ih f2 hb cp h2

theorem buildFont_fontLiterals_isSome : (buildFont fontLiterals).isSome = true := by decide

theorem fontList_wf : fontWF fontList := by
  have h := buildFont_fontLiterals_isSome
  cases hb : buildFont fontLiterals with
  | none => rw [hb] at h; simp at h
  | some f =>
    have : fontList = f := by unfold fontList; rw [hb]; rfl
    rw [this]
    exact buildFont_wf _ _ hb

theorem lookup_mem {β : Type _} (a : Char) (l : List (Char × β)) (b : β)
    (h : List.lookup a l = some b) : (a, b) ∈ l := by
  induction l with
  | nil => simp [List.lookup] at h
  | cons e rest ih =>
    obtain ⟨k, v⟩ := e
    rw [List.lookup] at h
    cases hk : (a == k) with
    | true =>
      rw [hk] at h
      have hak : a = k := eq_of_beq hk
      have hv : v = b := by injection h
      rw [hak, ← hv]
      exact List.mem_cons_self _ _
    | false =>
      rw [hk] at h
      exact List.mem_cons_of_mem _ (ih h)

theorem charWidth_pos (c : Char) (h : c = ' ' ∨ (get_pattern fontList c).isSome = true) :
    1 ≤ charWidth fontList c := by
  unfold charWidth
  by_cases hs : c = ' '
  · rw [if_pos hs]; omega
  · rw [if_neg hs]
    rcases h with h1 | h2
    · exact absurd h1 hs
    · cases hp : get_pattern fontList c with
      | none => rw [hp] at h2; simp at h2
      | some p =>
        have hmem : (c, p) ∈ fontList := lookup_mem c fontList p hp
        exact (fontList_wf (c, p) hmem).2.1

end FontLemmas

section ValidateLemmas

theorem validate_eq_error_iff (text : List Char) (font : List (Char × CharacterPattern))
    (c : Char) :
    validate_text text font = Except.error (PixelArtError.UnsupportedCharacter c) ↔
      firstUnsupported font text = some c := by
  induction text with
  | nil => simp [validate_text, firstUnsupported]
  | cons a rest ih =>
    unfold validate_text firstUnsupported
    by_cases ha : a = ' '
    · rw [if_pos ha]
      rw [List.find?_cons_of_neg _ (by simp [ha])]
      exact ih
    · rw [if_neg ha]
      by_cases hs : (get_pattern font a).isSome = true
      · rw [if_pos hs]
        rw [List.find?_cons_of_neg _ (by simp [ha, Option.isNone_iff_eq_none,
          Option.isSome_iff_exists] at hs ⊢; obtain ⟨p, hp⟩ := hs; simp [hp])]
        exact ih
      · rw [if_neg hs]
        rw [List.find?_cons_of_pos _ (by
          simp [ha, Option.isNone_iff_eq_none]
          simpa [Option.not_isSome_iff_eq_none] using hs)]
        simp

theorem validate_eq_ok_of_none (text : List Char) (font : List (Char × CharacterPattern))
    (h : firstUnsupported font text = none) : validate_text text font = Except.ok () := by
  induction text with
  | nil => rfl
  | cons a rest ih =>
    unfold firstUnsupported at h ih
    unfold validate_text
    by_cases ha : a = ' '
    · rw [if_pos ha]
      rw [List.find?_cons_of_neg _ (by simp [ha])] at h
      exact ih h
    · rw [if_neg ha]
      by_cases hs : (get_pattern font a).isSome = true
      · rw [if_pos hs]
        refine ih ?_
        rw [List.find?_cons_of_neg _ (by simp [ha, Option.isNone_iff_eq_none,
          Option.isSome_iff_exists] at hs ⊢; obtain ⟨p, hp⟩ := hs; simp [hp])] at h
        exact h
      · rw [List.find?_cons_of_pos _ (by
          simp [ha, Option.isNone_iff_eq_none]
          simpa [Option.not_isSome_iff_eq_none] using hs)] at h
        exact absurd h (by simp)

theorem validate_ok_mem (text : List Char) (font : List (Char × CharacterPattern))
    (h : validate_text text font = Except.ok ()) :
    ∀ c ∈ text, c = ' ' ∨ (get_pattern font c).isSome = true := by
  induction text with
  | nil => intro c hc; simp at hc
  | cons a rest ih =>
    unfold validate_text at h
    intro c hc
    by_cases ha : a = ' '
    · rw [if_pos ha] at h
      rcases List.mem_cons.mp hc with h1 | h2
      · exact Or.inl (h1.trans ha)
      · exact ih h c h2
    · rw [if_neg ha] at h
      by_cases hs : (get_pattern font a).isSome = true
      · rw [if_pos hs] at h
        rcases List.mem_cons.mp hc with h1 | h2
        · rw [h1]; exact Or.inr hs
        · exact ih h c h2
      · rw [if_neg hs] at h
        exact absurd h (by simp)

end ValidateLemmas

section WidthLemmas

theorem contentWidth_eq_sum (font : List (Char × CharacterPattern)) (text : List Char)
    (h : text ≠ []) :
    contentWidth font text = sumGlyphWidths font text + (text.length - 1) := by
  induction text with
  | nil => exact absurd rfl h
  | cons c rest ih =>
    unfold contentWidth sumGlyphWidths
    cases rest with
    | nil => simp [sumGlyphWidths, contentWidth]
    | cons b t =>
      have := ih (by simp)
      unfold sumGlyphWidths at this
      simp only [List.isEmpty_cons, if_neg]
      simp only [List.map_cons, List.sum_cons] at this ⊢
      rw [this]
      simp [Nat.succ_sub_one]
      omega

theorem charWidth_of_lookup (font : List (Char × CharacterPattern)) (c : Char)
    (p : CharacterPattern) (hc : ¬c = ' ') (hp : get_pattern font c = some p) :
    charWidth font c = p.width := by
  unfold charWidth
  rw [if_neg hc, hp]

theorem charWidth_space (font : List (Char × CharacterPattern)) :
    charWidth font ' ' = 2 := rfl

end WidthLemmas

section CompositeLemmas

theorem compositeLoop_length (font : List (Char × CharacterPattern)) (cs : List Char)
    (x : Nat) (g : Grid) : (compositeLoop font cs x g).length = g.length := by
  induction cs generalizing x g with
  | nil => rfl
  | cons c rest ih =>
    unfold compositeLoop
    by_cases hc : c = ' '
    · rw [if_pos hc, ih]
    · rw [if_neg hc]
      cases hp : get_pattern font c with
      | some p => rw [ih, writePattern_length]
      | none => rw [ih]

theorem compositeLoop_rowLength (font : List (Char × CharacterPattern)) (cs : List Char)
    (x : Nat) (g : Grid) (i : Nat) :
    ((compositeLoop font cs x g).getD i []).length = (g.getD i []).length := by
  induction cs generalizing x g with
  | nil => rfl
  | cons c rest ih =>
    unfold compositeLoop
    by_cases hc : c = ' '
    · rw [if_pos hc, ih]
    · rw [if_neg hc]
      cases hp : get_pattern font c with
      | some p => rw [ih, writePattern_rowLength]
      | none => rw [ih]

theorem compositeLoop_border (font : List (Char × CharacterPattern)) (hf : fontWF font)
    (W : Nat) (cs : List Char) (x : Nat) (g : Grid) (hx : 1 ≤ x)
    (hb : x + contentWidth font cs + 1 ≤ W) (h : borderZero W g) :
    borderZero W (compositeLoop font cs x g) := by
  induction cs generalizing x g with
  | nil => exact h
  | cons c rest ih =>
    unfold compositeLoop
    unfold contentWidth at hb
    by_cases hc : c = ' '
    · rw [if_pos hc]
      refine ih (nextX rest (x + 2)) g ?_ ?_ h
      · unfold nextX; split <;> omega
      · rw [hc] at hb
        rw [charWidth_space] at hb
        unfold nextX
        cases rest with
        | nil => simpa using hb
        | cons b t =>
          simp only [List.isEmpty_cons, if_neg] at hb ⊢
          simp at hb ⊢
          omega
    · rw [if_neg hc]
      cases hp : get_pattern font c with
      | some p =>
        have hpwf : patternWF p := hf (c, p) (lookup_mem c font p hp)
        have hcw : charWidth font c = p.width := charWidth_of_lookup font c p hc hp
        have hwb : x + p.width + 1 ≤ W := by
          rw [hcw] at hb
          cases rest with
          | nil => simp at hb; omega
          | cons b t => simp at hb; omega
        have hg2 : borderZero W (writePattern g p x) := by
          obtain ⟨h0, h6, hl, hr⟩ := h
          refine ⟨?_, ?_, ?_, ?_⟩
          · intro j
            rw [writePattern_get2d_ne g p x 0 j hpwf (Or.inl rfl)]
            exact h0 j
          · intro j
            rw [writePattern_get2d_ne g p x 6 j hpwf (Or.inr (Or.inl (by omega)))]
            exact h6 j
          · intro i
            rw [writePattern_get2d_ne g p x i 0 hpwf (Or.inr (Or.inr (Or.inl (by omega))))]
            exact hl i
          · intro i
            rw [writePattern_get2d_ne g p x i (W - 1) hpwf
              (Or.inr (Or.inr (Or.inr (by omega))))]
            exact hr i
        refine ih (nextX rest (x + p.width)) (writePattern g p x) ?_ ?_ hg2
        · unfold nextX; split <;> omega
        · rw [hcw] at hb
          unfold nextX
          cases rest with
          | nil => simpa using hb
          | cons b t => simp at hb ⊢; omega
      | none =>
        refine ih (nextX rest x) g ?_ ?_ h
        · unfold nextX; split <;> omega
        · unfold nextX
          cases rest with
          | nil => simp at hb ⊢; omega
          | cons b t => simp at hb ⊢; omega

end CompositeLemmas

section StringLemmas

theorem bitChar_ne_nl (p : Nat) : bitChar p ≠ nl := by
  unfold bitChar nl
  split <;> decide

theorem nl_not_mem_bitRow (row : List Nat) : nl ∉ row.map bitChar := by
  intro h
  obtain ⟨p, _, hp⟩ := List.mem_map.mp h
  exact bitChar_ne_nl p hp

theorem linesAux_append (line : List Char) (hnl : nl ∉ line) (rest : List Char)
    (acc : List Char) :
    linesAux (line ++ nl :: rest) acc = (acc.reverse ++ line) :: linesAux rest [] := by
  induction line generalizing acc with
  | nil => simp [linesAux]
  | cons c t ih =>
    have hc : ¬c = nl := fun h => hnl (by rw [h]; exact List.mem_cons_self _ _)
    simp only [List.cons_append, linesAux, if_neg hc, List.append_eq]
    rw [ih (fun h => hnl (List.mem_cons_of_mem _ h)) (c :: acc)]
    simp

theorem linesOf_gridToString (g : Grid) :
    linesOf (gridToString g) = g.map (fun row => row.map bitChar) := by
  induction g with
  | nil => rfl
  | cons row rest ih =>
    unfold gridToString linesOf
    rw [linesAux_append _ (nl_not_mem_bitRow row) _ []]
    unfold linesOf at ih
    rw [ih]
    simp

theorem count_nl_gridToString (g : Grid) :
    List.count nl (gridToString g) = g.length := by
  induction g with
  | nil => rfl
  | cons row rest ih =>
    unfold gridToString
    rw [List.count_append, List.count_cons_self, ih]
    rw [List.count_eq_zero.mpr (nl_not_mem_bitRow row)]
    simp

theorem gridToString_ends_nl (g : Grid) (h : g ≠ []) :
    ∃ t, gridToString g = t ++ [nl] := by
  induction g with
  | nil => exact absurd rfl h
  | cons row rest ih =>
    cases rest with
    | nil => exact ⟨row.map bitChar, rfl⟩
    | cons row2 t2 =>
      obtain ⟨t, ht⟩ := ih (by simp)
      refine ⟨row.map bitChar ++ nl :: t, ?_⟩
      unfold gridToString
      rw [ht]
      simp

end StringLemmas

section RenderLemmas

/-- The grid built by a successful call of `text_to_pixel_art`. -/
def renderGrid (text : List Char) : Grid :=
  compositeLoop fontList text 1
    (List.replicate 7 (List.replicate (contentWidth fontList text + 2) 0))

theorem render_ok_of_validate (text : List Char) (hne : text ≠ [])
    (hv : validate_text text fontList = Except.ok ()) :
    text_to_pixel_art text = Except.ok (gridToString (renderGrid text)) := by
  unfold text_to_pixel_art renderGrid
  rw [if_neg hne, hv]

theorem render_error_of_validate (text : List Char) (hne : text ≠ []) (e : PixelArtError)
    (hv : validate_text text fontList = Except.error e) :
    text_to_pixel_art text = Except.error e := by
  unfold text_to_pixel_art
  rw [if_neg hne, hv]

theorem render_ok_inv (text s : List Char) (hne : text ≠ [])
    (h : text_to_pixel_art text = Except.ok s) :
    validate_text text fontList = Except.ok () ∧ s = gridToString (renderGrid text) := by
  unfold text_to_pixel_art at h
  rw [if_neg hne] at h
  cases hv : validate_text text fontList with
  | ok u =>
    cases u
    rw [hv] at h
    refine ⟨rfl, ?_⟩
    unfold renderGrid
    simpa using h.symm
  | error e =>
    rw [hv] at h
    exact absurd h (by simp)

theorem renderGrid_length (text : List Char) : (renderGrid text).length = 7 := by
  unfold renderGrid
  rw [compositeLoop_length]
  simp

theorem renderGrid_rowLength (text : List Char) (i : Nat) (hi : i < 7) :
    ((renderGrid text).getD i []).length = contentWidth fontList text + 2 := by
  unfold renderGrid
  rw [compositeLoop_rowLength]
  rw [getD_replicate 7 i _ _ hi]
  simp

theorem get2d_init (W i j : Nat) :
    get2d (List.replicate 7 (List.replicate W 0)) i j = 0 := by
  unfold get2d
  by_cases hi : i < 7
  · rw [getD_replicate 7 i _ _ hi]
    by_cases hj : j < W
    · exact getD_replicate W j _ _ hj
    · exact getD_of_length_le _ _ _ (by simpa using Nat.le_of_not_lt hj)
  · rw [getD_of_length_le (List.replicate 7 (List.replicate W 0)) i []
      (by simpa using Nat.le_of_not_lt hi)]
    rfl

theorem renderGrid_border (text : List Char) :
    borderZero (contentWidth fontList text + 2) (renderGrid text) := by
  unfold renderGrid
  refine compositeLoop_border fontList fontList_wf _ text 1 _ (by omega) (by omega) ?_
  exact ⟨fun j => get2d_init _ 0 j, fun j => get2d_init _ 6 j,
    fun i => get2d_init _ i 0, fun i => get2d_init _ i _⟩

end RenderLemmas

section MoreHelpers

theorem validate_error_unsupported (text : List Char) (font : List (Char × CharacterPattern))
    (e : PixelArtError) (h : validate_text text font = Except.error e) :
    ∃ c, e = PixelArtError.UnsupportedCharacter c := by
  induction text with
  | nil => exact absurd h (by simp [validate_text])
  | cons a rest ih =>
    unfold validate_text at h
    by_cases ha : a = ' '
    · rw [if_pos ha] at h
      exact ih h
    · rw [if_neg ha] at h
      by_cases hs : (get_pattern font a).isSome = true
      · rw [if_pos hs] at h
        exact ih h
      · rw [if_neg hs] at h
        have he : PixelArtError.UnsupportedCharacter a = e := by injection h
        exact ⟨a, he.symm⟩

theorem contentWidth_pos (text : List Char) (hne : text ≠ [])
    (hv : validate_text text fontList = Except.ok ()) :
    1 ≤ contentWidth fontList text := by
  cases text with
  | nil => exact absurd rfl hne
  | cons c rest =>
    have hc : c = ' ' ∨ (get_pattern fontList c).isSome = true :=
      validate_ok_mem _ _ hv c (List.mem_cons_self _ _)
    have := charWidth_pos c hc
    unfold contentWidth
    omega

theorem bitChar_cases (v : Nat) : bitChar v = '0' ∨ bitChar v = '1' := by
  unfold bitChar
  split
  · exact Or.inr rfl
  · exact Or.inl rfl

end MoreHelpers

set_option maxRecDepth 40000 in
/-- C1: contrary to the claim, `text_to_pixel_art` performs no length check at
all: an input of 1001 characters succeeds, and every error the function can
return is an `UnsupportedCharacter` — `TextTooLong` is declared (and handled by
`main.rs`) but never constructed in `lib.rs`. -/
theorem claim_C1 :
    (List.replicate 1001 ' ' : List Char).length = 1001 ∧
    (text_to_pixel_art (List.replicate 1001 ' ')).isOk = true ∧
    ∀ (text : List Char) (e : PixelArtError),
      text_to_pixel_art text = Except.error e →
      ∃ c, e = PixelArtError.UnsupportedCharacter c := by
  refine ⟨by rw [List.length_replicate], by decide, ?_⟩
  intro text e h
  by_cases hne : text = []
  · rw [hne] at h
    exact absurd h (by simp [text_to_pixel_art])
  · unfold text_to_pixel_art at h
    rw [if_neg hne] at h
    cases hv : validate_text text fontList with
    | ok u =>
      cases u
      rw [hv] at h
      exact absurd h (by simp)
    | error e2 =>
      rw [hv] at h
      have h2 : Except.error (ε := PixelArtError) (α := List Char) e2 = Except.error e := h
      have he : e2 = e := by injection h2
      obtain ⟨c, hc⟩ := validate_error_unsupported text fontList e2 hv
      exact ⟨c, he ▸ hc⟩

/-- Witness for C1: the one error the function does return on a concrete
input is an `UnsupportedCharacter`. -/
theorem claim_C1_witness :
    ∃ c, PixelArtError.UnsupportedCharacter '€' = PixelArtError.UnsupportedCharacter c :=
  claim_C1.2.2 ['€'] (PixelArtError.UnsupportedCharacter '€') rfl

/-- C2: whenever the input contains a non-space character without a glyph
table entry, `text_to_pixel_art` fails with `UnsupportedCharacter` carrying
the first such character in left-to-right order. -/
theorem claim_C2 (text : List Char) (c : Char)
    (h : firstUnsupported fontList text = some c) :
    text_to_pixel_art text = Except.error (PixelArtError.UnsupportedCharacter c) := by
  have hne : text ≠ [] := by
    intro he
    rw [he] at h
    simp [firstUnsupported] at h
  exact render_error_of_validate text hne _ ((validate_eq_error_iff text fontList c).mpr h)

/-- Witness for C2 at a concrete unsupported character. -/
theorem claim_C2_witness :
    text_to_pixel_art ['€'] = Except.error (PixelArtError.UnsupportedCharacter '€') :=
  claim_C2 ['€'] '€' (by decide)

/-- C3: on every successful non-empty render, every output line has length
`2 + Σ glyph widths + (n - 1)`, a space contributing width 2. -/
theorem claim_C3 (text s : List Char) (hne : text ≠ [])
    (h : text_to_pixel_art text = Except.ok s) :
    ∀ line ∈ linesOf s,
      line.length = 2 + sumGlyphWidths fontList text + (text.length - 1) := by
  obtain ⟨hv, hs⟩ := render_ok_inv text s hne h
  rw [hs, linesOf_gridToString]
  intro line hl
  obtain ⟨row, hrow, hline⟩ := List.mem_map.mp hl
  obtain ⟨i, hi, hgi⟩ := exists_getD_of_mem _ row [] hrow
  rw [renderGrid_length] at hi
  rw [← hline, List.length_map, ← hgi, renderGrid_rowLength text i hi,
    contentWidth_eq_sum fontList text hne]
  omega

/-- Witness for C3 on the first output line of rendering `"A"`. -/
theorem claim_C3_witness :
    ((linesOf ((text_to_pixel_art ['A']).toOption.getD [])).headD []).length =
      2 + sumGlyphWidths fontList ['A'] + ((['A'] : List Char).length - 1) :=
  claim_C3 ['A'] _ (by decide) rfl _ (by decide)

/-- C4: rendering any single supported character succeeds, and every
successful non-empty render yields exactly 7 rows. -/
theorem claim_C4 :
    (∀ c : Char, (get_pattern fontList c).isSome = true →
      (text_to_pixel_art [c]).isOk = true) ∧
    (∀ text s : List Char, text ≠ [] → text_to_pixel_art text = Except.ok s →
      (linesOf s).length = 7) := by
  constructor
  · intro c hc
    have hv : validate_text [c] fontList = Except.ok () := by
      unfold validate_text
      by_cases h : c = ' '
      · rw [if_pos h]
        rfl
      · rw [if_neg h, if_pos hc]
        rfl
    rw [render_ok_of_validate [c] (by simp) hv]
    rfl
  · intro text s hne h
    obtain ⟨hv, hs⟩ := render_ok_inv text s hne h
    rw [hs, linesOf_gridToString, List.length_map, renderGrid_length]

/-- Witness for C4 at the supported character `'A'`. -/
theorem claim_C4_witness :
    (text_to_pixel_art ['A']).isOk = true ∧
    (linesOf ((text_to_pixel_art ['A']).toOption.getD [])).length = 7 :=
  ⟨claim_C4.1 'A' (by decide), claim_C4.2 ['A'] _ (by decide) rfl⟩

/-- C5: the empty input succeeds and returns the explicitly empty result, with
no rows and no columns — never a placeholder block. -/
theorem claim_C5 : text_to_pixel_art [] = Except.ok [] ∧ linesOf [] = [] :=
  ⟨rfl, rfl⟩

/-- C6: the renderer is deterministic — equal inputs give equal outputs. -/
theorem claim_C6 (t1 t2 : List Char) (h : t1 = t2) :
    text_to_pixel_art t1 = text_to_pixel_art t2 := by
  rw [h]

/-- Witness for C6 at a concrete input. -/
theorem claim_C6_witness : text_to_pixel_art ['A'] = text_to_pixel_art ['A'] :=
  claim_C6 ['A'] ['A'] rfl

/-- C7: on every successful non-empty render the canvas border is all zeros:
the first and the seventh line consist of `'0'` only, and every line starts
and ends with `'0'`. -/
theorem claim_C7 (text s : List Char) (hne : text ≠ [])
    (h : text_to_pixel_art text = Except.ok s) :
    (∀ c ∈ (linesOf s).getD 0 [], c = '0') ∧
    (∀ c ∈ (linesOf s).getD 6 [], c = '0') ∧
    (∀ line ∈ linesOf s, line ≠ [] ∧ line.getD 0 '1' = '0' ∧
      line.getD (line.length - 1) '1' = '0') := by
  obtain ⟨hv, hs⟩ := render_ok_inv text s hne h
  obtain ⟨h0, h6, hl, hr⟩ := renderGrid_border text
  have hcw : 1 ≤ contentWidth fontList text := contentWidth_pos text hne hv
  have hW : 3 ≤ contentWidth fontList text + 2 := by omega
  rw [hs, linesOf_gridToString]
  have hrowzero : ∀ i0 : Nat, (∀ j, get2d (renderGrid text) i0 j = 0) →
      ∀ c ∈ ((renderGrid text).map (fun row => row.map bitChar)).getD i0 [],
        c = '0' := by
    intro i0 hz c hc
    by_cases hi0 : i0 < (renderGrid text).length
    · rw [getD_map _ _ _ _ [] hi0] at hc
      obtain ⟨v, hv2, hbc⟩ := List.mem_map.mp hc
      obtain ⟨j, hj, hgj⟩ := exists_getD_of_mem _ v 0 hv2
      have : v = 0 := by
        rw [← hgj]
        exact hz j
      rw [← hbc, this]
      rfl
    · rw [getD_of_length_le _ _ _ (by simpa using Nat.le_of_not_lt hi0)] at hc
      simp at hc
  refine ⟨hrowzero 0 h0, hrowzero 6 h6, ?_⟩
  intro line hlm
  obtain ⟨row, hrow, hline⟩ := List.mem_map.mp hlm
  obtain ⟨i, hi, hgi⟩ := exists_getD_of_mem _ row [] hrow
  rw [renderGrid_length] at hi
  have hrl : row.length = contentWidth fontList text + 2 := by
    rw [← hgi]
    exact renderGrid_rowLength text i hi
  refine ⟨?_, ?_, ?_⟩
  · rw [← hline]
    intro hemp
    have := List.length_eq_zero.mpr hemp
    rw [List.length_map, hrl] at this
    omega
  · rw [← hline, getD_map _ _ _ _ 0 (by omega)]
    have : row.getD 0 0 = 0 := by
      rw [← hgi]
      exact hl i
    rw [this]
    rfl
  · rw [← hline, List.length_map, hrl]
    rw [getD_map _ _ _ _ 0 (by omega)]
    have : row.getD (contentWidth fontList text + 2 - 1) 0 = 0 := by
      rw [← hgi]
      exact hr i
    rw [this]
    rfl

/-- Witness for C7 on the first output line of rendering `"A"`. -/
theorem claim_C7_witness :
    (linesOf ((text_to_pixel_art ['A']).toOption.getD [])).headD [] ≠ [] ∧
    ((linesOf ((text_to_pixel_art ['A']).toOption.getD [])).headD []).getD 0 '1' = '0' ∧
    ((linesOf ((text_to_pixel_art ['A']).toOption.getD [])).headD []).getD
      (((linesOf ((text_to_pixel_art ['A']).toOption.getD [])).headD []).length - 1)
      '1' = '0' :=
  (claim_C7 ['A'] _ (by decide) rfl).2.2 _ (by decide)

/-- C8: the space character is a special case, not a table entry: it never
produces `UnsupportedCharacter`, the table has no entry for it, it contributes
exactly width 2, the composite pass writes no bits for it (the grid is passed
through unchanged), and a lone space renders to an all-zero 7-by-4 canvas. -/
theorem claim_C8 :
    (∀ (text : List Char) (c : Char),
      text_to_pixel_art text = Except.error (PixelArtError.UnsupportedCharacter c) →
      ¬c = ' ') ∧
    get_pattern fontList ' ' = none ∧
    charWidth fontList ' ' = 2 ∧
    (∀ (rest : List Char) (x : Nat) (g : Grid),
      compositeLoop fontList (' ' :: rest) x g =
        compositeLoop fontList rest (nextX rest (x + 2)) g) ∧
    text_to_pixel_art [' '] =
      Except.ok (gridToString (List.replicate 7 (List.replicate 4 0))) := by
  refine ⟨?_, by decide, rfl, ?_, rfl⟩
  · intro text c h
    by_cases hne : text = []
    · rw [hne] at h
      exact absurd h (by simp [text_to_pixel_art])
    · unfold text_to_pixel_art at h
      rw [if_neg hne] at h
      cases hv : validate_text text fontList with
      | ok u =>
        cases u
        rw [hv] at h
        exact absurd h (by simp)
      | error e2 =>
        rw [hv] at h
        have h2 : Except.error (ε := PixelArtError) (α := List Char) e2 =
            Except.error (PixelArtError.UnsupportedCharacter c) := h
        have he : e2 = PixelArtError.UnsupportedCharacter c := by injection h2
        rw [he] at hv
        have hf := (validate_eq_error_iff text fontList c).mp hv
        have hp := List.find?_some hf
        simp only [Bool.and_eq_true, Bool.not_eq_true', beq_eq_false_iff_ne] at hp
        exact hp.1
  · intro rest x g
    rfl

/-- Witness for C8: the concrete offending character of a failing render is
not the space. -/
theorem claim_C8_witness : ¬('€' = ' ') :=
  claim_C8.1 ['€'] '€' rfl

/-- C9: the glyph table construction succeeds (no constructor assertion
fires), and every stored pattern has exactly 5 rows, positive width, and all
rows of exactly that width. -/
theorem claim_C9 :
    (buildFont fontLiterals).isSome = true ∧
    ∀ cp ∈ fontList, cp.2.pixels.length = 5 ∧ 1 ≤ cp.2.width ∧
      ∀ row ∈ cp.2.pixels, row.length = cp.2.width :=
  ⟨buildFont_fontLiterals_isSome, fun cp hcp => fontList_wf cp hcp⟩

/-- Witness for C9 at the first table entry. -/
theorem claim_C9_witness :
    (fontList.headD (' ', { pixels := [], width := 0 })).2.pixels.length = 5 ∧
    1 ≤ (fontList.headD (' ', { pixels := [], width := 0 })).2.width ∧
    ∀ row ∈ (fontList.headD (' ', { pixels := [], width := 0 })).2.pixels,
      row.length = (fontList.headD (' ', { pixels := [], width := 0 })).2.width :=
  claim_C9.2 _ (by decide)

/-- C10: every successful non-empty render is exactly 7 newline-terminated
rows of `'0'`/`'1'` characters: the string contains exactly 7 newlines, ends
with a newline, and splits into 7 lines of bit characters. -/
theorem claim_C10 (text s : List Char) (hne : text ≠ [])
    (h : text_to_pixel_art text = Except.ok s) :
    List.count nl s = 7 ∧ (∃ t, s = t ++ [nl]) ∧ (linesOf s).length = 7 ∧
    ∀ line ∈ linesOf s, ∀ c ∈ line, c = '0' ∨ c = '1' := by
  obtain ⟨hv, hs⟩ := render_ok_inv text s hne h
  have hglen : (renderGrid text).length = 7 := renderGrid_length text
  refine ⟨?_, ?_, ?_, ?_⟩
  · rw [hs, count_nl_gridToString, hglen]
  · rw [hs]
    refine gridToString_ends_nl _ ?_
    intro hg
    rw [hg] at hglen
    simp at hglen
  · rw [hs, linesOf_gridToString, List.length_map, hglen]
  · rw [hs, linesOf_gridToString]
    intro line hlm c hc
    obtain ⟨row, _, hline⟩ := List.mem_map.mp hlm
    rw [← hline] at hc
    obtain ⟨v, _, hbc⟩ := List.mem_map.mp hc
    rw [← hbc]
    exact bitChar_cases v

/-- Witness for C10 on rendering `"A"`. -/
theorem claim_C10_witness :
    List.count nl ((text_to_pixel_art ['A']).toOption.getD []) = 7 :=
  (claim_C10 ['A'] _ (by decide) rfl).1

end TextToInput
